import Mathlib

set_option maxRecDepth 100000

/-!
# Verification of the reelzila-admin bulk-import pipeline and session gate

Shallow embedding of the code in `src/components/admin/CsvUpload.tsx`
(row validator, validation loop, import orchestrator),
`src/components/AdminAuthWrapper.tsx` (session gate with TTL cache), and a
spec-modelled Identity Resolver (the memoized resolver described in the spec
is not present in the sources; only its contract is given in §4.3).

Modelling conventions:
- JavaScript strings are Lean `String`s; the character classes involved are
  ASCII in all reachable inputs (`\s`, digits, `/`, `@`, `.`), so Lean's
  `Char.isWhitespace` / `Char.toLower` coincide with the JS behaviour on the
  domain of interest.
- JS numbers holding integer values are `Int`; `parseInt` results that may be
  `NaN` are `Option Int` (`none` = NaN).
- JS `Date` is modelled by proleptic-Gregorian day arithmetic (the
  `MakeDay`/date-getter semantics of ECMAScript): floor division throughout.
  All divisors are positive constants, for which Lean's Euclidean `Int./`
  agrees with floor division, so `/` and `%` are used directly.
-/

/-! ## Row validator (`validateRow` in CsvUpload.tsx) -/

/-- JS `String.prototype.trim`: strip leading and trailing whitespace.
(Same semantics as Lean's `String.trim`, but defined over the character list
so that it reduces in the kernel.) -/
def jsTrim (s : String) : String :=
  ⟨((s.data.dropWhile Char.isWhitespace).reverse.dropWhile
      Char.isWhitespace).reverse⟩

/-- JS `String.prototype.toLowerCase`, character-wise (ASCII suffices on the
reachable inputs). -/
def jsToLower (s : String) : String := ⟨s.data.map Char.toLower⟩

/-- A character allowed in the email regex classes `[^\s@]`. -/
def isEmailChar (c : Char) : Bool := !c.isWhitespace && c ≠ '@'

/-- `/^[^\s@]+@[^\s@]+\.[^\s@]+$/.test s`: the string decomposes as
`local@b.c` with `local`, `b`, `c` nonempty and free of whitespace and `@`.
Since the local part cannot contain `@`, any match splits at the first `@`,
and the part after it must contain a dot that is neither its first nor its
last character. -/
def emailRegexTest (s : String) : Bool :=
  let cs := s.data
  match cs.findIdx? (fun c => c = '@') with
  | none => false
  | some i =>
    let localPart := cs.take i
    let domainPart := cs.drop (i + 1)
    !localPart.isEmpty && localPart.all isEmailChar &&
      domainPart.all isEmailChar && domainPart.dropLast.tail.contains '.'

/-- `DATE_REGEX = /^\d{2}\/\d{2}\/\d{4}$/`. -/
def dateRegexTest (s : String) : Bool :=
  match s.data with
  | [d1, d2, s1, m1, m2, s2, y1, y2, y3, y4] =>
    d1.isDigit && d2.isDigit && s1 = '/' && m1.isDigit && m2.isDigit &&
      s2 = '/' && y1.isDigit && y2.isDigit && y3.isDigit && y4.isDigit
  | _ => false

/-- Numeric value of a decimal digit character. -/
def digitVal (c : Char) : Int := (c.toNat : Int) - 48

/-- `row.date.split('/').map(Number)` on a string matching `DATE_REGEX`:
yields `(dd, mm, yyyy)`. (Junk value `(0,0,0)` off the lexical domain; the
validator only reaches this after `DATE_REGEX` passes.) -/
def parseDateParts (s : String) : Int × Int × Int :=
  match s.data with
  | [d1, d2, _, m1, m2, _, y1, y2, y3, y4] =>
    (10 * digitVal d1 + digitVal d2,
     10 * digitVal m1 + digitVal m2,
     1000 * digitVal y1 + 100 * digitVal y2 + 10 * digitVal y3 + digitVal y4)
  | _ => (0, 0, 0)

/-- Hinnant's `days_from_civil`: day number of `y-m-d` (month `1..12`)
relative to 1970-01-01, proleptic Gregorian. This is the day arithmetic the
ECMAScript `MakeDay` operation performs. Divisors are positive, so `/` is
floor division as required. -/
def daysFromCivil (y m d : Int) : Int :=
  let y2 := if m ≤ 2 then y - 1 else y
  let era := y2 / 400
  let yoe := y2 - era * 400
  let mp := if m ≤ 2 then m + 9 else m - 3
  let doy := (153 * mp + 2) / 5 + d - 1
  let doe := yoe * 365 + yoe / 4 - yoe / 100 + doy
  era * 146097 + doe - 719468

/-- Hinnant's `civil_from_days`: inverse of `daysFromCivil`, recovering
`(year, month 1..12, day)` from a day number. -/
def civilFromDays (z0 : Int) : Int × Int × Int :=
  let z := z0 + 719468
  let era := z / 146097
  let doe := z - era * 146097
  let yoe := (doe - doe / 1460 + doe / 36524 - doe / 146096) / 365
  let y := yoe + era * 400
  let doy := doe - (365 * yoe + yoe / 4 - yoe / 100)
  let mp := (5 * doy + 2) / 153
  let d := doy - (153 * mp + 2) / 5 + 1
  let m := if mp < 10 then mp + 3 else mp - 9
  (if m ≤ 2 then y + 1 else y, m, d)

/-- `new Date(year, monthIndex, day)` followed by
`(getFullYear(), getMonth() + 1, getDate())`: per ECMAScript, a year argument
in `0..99` is mapped to `1900 + year`; the month index is normalized into the
year by floor division; day overflow is normalized by day arithmetic. -/
def jsMakeDate (year monthIndex day : Int) : Int × Int × Int :=
  let yr := if 0 ≤ year ∧ year ≤ 99 then 1900 + year else year
  let ym := yr + monthIndex / 12
  let mn := monthIndex % 12
  civilFromDays (daysFromCivil ym (mn + 1) 1 + (day - 1))

/-- The round-trip check of `validateRow`:
`dateObj.getDate() === dd && dateObj.getMonth() === mm - 1 &&
dateObj.getFullYear() === yyyy`. -/
def dateRoundTrips (dd mm yyyy : Int) : Bool :=
  let r := jsMakeDate yyyy (mm - 1) dd
  decide (r.2.2 = dd) && decide (r.2.1 - 1 = mm - 1) && decide (r.1 = yyyy)

/-- One parsed row as produced by `parseCsv`/`parseXlsx` (`ParsedRow` in the
source). `amount` is the result of `parseInt`; `none` models `NaN`. -/
structure ParsedRow where
  email : String
  date : String
  amount : Option Int
  type : String
  status : String
deriving DecidableEq

def VALID_STATUSES : List String := ["paid", "pending", "failed"]

def MAX_ROWS : Nat := 1000

/-- Failure condition of rule 1: `!row.email || !regex.test(row.email)`. -/
def emailBad (s : String) : Bool := s == "" || !emailRegexTest s

/-- Failure condition of rule 2: `!row.date || !DATE_REGEX.test(row.date)`. -/
def dateBad (s : String) : Bool := s == "" || !dateRegexTest s

/-- Failure condition of the amount rule:
`isNaN(row.amount) || row.amount < 0 || row.amount > 100000`. -/
def amountBad : Option Int → Bool
  | none => true
  | some a => decide (a < 0) || decide (100000 < a)

/-- Failure condition of the type rule:
`!row.type || row.type.trim().length === 0 || row.type.trim().length > 50`. -/
def typeBad (s : String) : Bool :=
  s == "" || (jsTrim s).length == 0 || decide (50 < (jsTrim s).length)

/-- Failure condition of the status rule:
`!VALID_STATUSES.includes(row.status.toLowerCase().trim())`. -/
def statusBad (s : String) : Bool :=
  !(VALID_STATUSES.contains (jsTrim (jsToLower s)))

def emailErrMsg (n : Nat) (e : String) : String :=
  "Row " ++ toString n ++ ": Invalid or missing email \"" ++ e ++ "\""

def dateFormatErrMsg (n : Nat) (d : String) : String :=
  "Row " ++ toString n ++ ": Invalid date \"" ++ d ++ "\". Use DD/MM/YYYY format"

def calendarErrMsg (n : Nat) (d : String) : String :=
  "Row " ++ toString n ++ ": Date \"" ++ d ++ "\" is not a valid calendar date"

def yearErrMsg (n : Nat) (y : Int) : String :=
  "Row " ++ toString n ++ ": Year " ++ toString y ++
    " is out of reasonable range (2000-2100)"

def amountErrMsg (n : Nat) : String :=
  "Row " ++ toString n ++ ": Amount must be a number between 0 and 100,000"

def typeErrMsg (n : Nat) : String :=
  "Row " ++ toString n ++ ": Type is required and must be under 50 characters"

def statusErrMsg (n : Nat) : String :=
  "Row " ++ toString n ++ ": Status must be one of: paid, pending, failed"

/-- `validateRow(row, rowNum)`: returns the first failing rule's message, or
`none`. (In the email message, `row.email || ''` equals `row.email`, since
the only falsy string is `''`.) -/
def validateRow (row : ParsedRow) (rowNum : Nat) : Option String :=
  if emailBad row.email then some (emailErrMsg rowNum row.email)
  else if dateBad row.date then some (dateFormatErrMsg rowNum row.date)
  else
    let dd := (parseDateParts row.date).1
    let mm := (parseDateParts row.date).2.1
    let yyyy := (parseDateParts row.date).2.2
    if !dateRoundTrips dd mm yyyy then some (calendarErrMsg rowNum row.date)
    else if decide (yyyy < 2000) || decide (2100 < yyyy) then
      some (yearErrMsg rowNum yyyy)
    else if amountBad row.amount then some (amountErrMsg rowNum)
    else if typeBad row.type then some (typeErrMsg rowNum)
    else if statusBad row.status then some (statusErrMsg rowNum)
    else none

/-- The spec's description of the validator (§4.2): the seven rules "applied
in this order (first failure wins)" — email format, date lexical shape, real
calendar date, year range, amount range, type length, status enum — each as
a failure condition paired with its message. `validateRow` is proved to
return exactly the message of the first failing entry of this table. -/
def ruleTable (row : ParsedRow) (rowNum : Nat) : List (Bool × String) :=
  [(emailBad row.email, emailErrMsg rowNum row.email),
   (dateBad row.date, dateFormatErrMsg rowNum row.date),
   (!dateRoundTrips (parseDateParts row.date).1 (parseDateParts row.date).2.1
      (parseDateParts row.date).2.2, calendarErrMsg rowNum row.date),
   (decide ((parseDateParts row.date).2.2 < 2000) ||
      decide (2100 < (parseDateParts row.date).2.2),
    yearErrMsg rowNum (parseDateParts row.date).2.2),
   (amountBad row.amount, amountErrMsg rowNum),
   (typeBad row.type, typeErrMsg rowNum),
   (statusBad row.status, statusErrMsg rowNum)]

/-! ## Validation loop and import orchestrator (`handleFileUpload`) -/

/-- A validated row as pushed onto `validRows` (lines 220-226 of the source):
`{email: row.email.trim(), date: row.date.trim(), amount: row.amount,
type: row.type.trim(), status: row.status.toLowerCase().trim()}`. -/
structure NormalizedRow where
  email : String
  date : String
  amount : Option Int
  type : String
  status : String
deriving DecidableEq

def normalizeValid (r : ParsedRow) : NormalizedRow :=
  { email := jsTrim r.email, date := jsTrim r.date, amount := r.amount,
    type := jsTrim r.type, status := jsTrim (jsToLower r.status) }

def moreErrorsMarker : String :=
  "... and more errors. Fix the first issues and re-upload."

/-- Outcome of the client-side validation loop. `validated` is ghost
instrumentation counting how many rows the loop ran `validateRow` on; it does
not influence the data outputs. -/
structure LoopOut where
  errs : List String
  valids : List NormalizedRow
  validated : Nat
deriving DecidableEq

/-- The `for` loop of `handleFileUpload` (lines 210-228): validate row `i`
with human row number `i + 2`; on error, push the message, and once 100
messages have accumulated, push the `... and more` marker and `break`; on
success, push the normalized row. -/
def validateLoop : List ParsedRow → Nat → List String → List NormalizedRow →
    Nat → LoopOut
  | [], _, errs, valids, cnt => ⟨errs, valids, cnt⟩
  | r :: rest, i, errs, valids, cnt =>
    match validateRow r (i + 2) with
    | some e =>
      let errs2 := errs ++ [e]
      if 100 ≤ errs2.length then ⟨errs2 ++ [moreErrorsMarker], valids, cnt + 1⟩
      else validateLoop rest (i + 1) errs2 valids (cnt + 1)
    | none => validateLoop rest (i + 1) errs (valids ++ [normalizeValid r]) (cnt + 1)

/-- Response shape of `POST /admin/transactions/bulk` (`BulkResult` in the
source). The orchestrator's defensive `response.success || 0` and
`response.errors || []` are identities on this well-typed shape. -/
structure BulkResult where
  success : Int
  errors : List String
deriving DecidableEq

/-- Result of one import run. `networkCalls` and `rowsValidated` are ghost
counters (number of `makeRequest` calls, number of `validateRow` calls). -/
structure ImportRun where
  result : BulkResult
  networkCalls : Nat
  rowsValidated : Nat
deriving DecidableEq

def emptyFileMsg : String := "File is empty or has no data rows."

def tooManyRowsMsg (n : Nat) : String :=
  "File has " ++ toString n ++ " rows. Maximum is " ++ toString MAX_ROWS ++
    " per upload."

/-- `handleFileUpload` from the point where parsing has produced `rows`
(lines 191-246): empty-file check, row-count ceiling, validation loop,
zero-valid-rows short-circuit, single bulk submission merging error lists.
`server` stands for the external bulk endpoint. -/
def handleParsedRows (rows : List ParsedRow)
    (server : List NormalizedRow → BulkResult) : ImportRun :=
  if rows.length = 0 then ⟨⟨0, [emptyFileMsg]⟩, 0, 0⟩
  else if MAX_ROWS < rows.length then ⟨⟨0, [tooManyRowsMsg rows.length]⟩, 0, 0⟩
  else
    let out := validateLoop rows 0 [] [] 0
    if out.valids.length = 0 then ⟨⟨0, out.errs⟩, 0, out.validated⟩
    else
      let resp := server out.valids
      ⟨⟨resp.success, out.errs ++ resp.errors⟩, 1, out.validated⟩

/-! ## Identity Resolver (spec-modelled)

Modelled from the spec: the memoized Identity Resolver of §4.3
(`resolve(email) -> userId | NotFound`, memoized per run via IdentityCache)
is not present under `src/` — the current `CsvUpload.tsx` delegates user
resolution to the server-side bulk endpoint, and `lookupUserByEmail` in
`marketplace/page.tsx` performs single uncached lookups. The definitions
below follow the spec's words: on cache miss issue exactly one external
lookup and cache either the resolved identifier or an explicit not-found
marker; rows are processed sequentially. -/

/-- Modelled from the spec: `resolve(email) -> userId | NotFound`. -/
inductive Resolution where
  | found (userId : String)
  | notFound
deriving DecidableEq

/-- Modelled from the spec: resolver state — the per-run IdentityCache plus a
ghost log of the emails for which an external lookup was issued. -/
structure ResolverRun where
  cache : List (String × Resolution)
  lookupLog : List String
deriving DecidableEq

def cacheHas (cache : List (String × Resolution)) (e : String) : Bool :=
  cache.any (fun p => p.1 == e)

/-- Modelled from the spec: sequentially resolve a run's emails; each cache
miss issues one external lookup against `store` and caches the result
(identifier or not-found marker). -/
def resolveRun (store : String → Option String) :
    List String → ResolverRun → ResolverRun
  | [], st => st
  | e :: rest, st =>
    if cacheHas st.cache e then resolveRun store rest st
    else
      let r := match store e with
        | some uid => Resolution.found uid
        | none => Resolution.notFound
      resolveRun store rest ⟨(e, r) :: st.cache, st.lookupLog ++ [e]⟩

/-! ## Session gate (`AdminAuthWrapper.tsx`, cached revision) -/

/-- One `adminCache` entry: `{verified: boolean, timestamp: number}`. -/
structure CacheEntry where
  verified : Bool
  timestamp : Nat
deriving DecidableEq

def CACHE_TTL : Nat := 60 * 1000

/-- `isCachedAdmin`: `!!cached && cached.verified &&
(Date.now() - cached.timestamp) < CACHE_TTL`. With `Nat` time and truncated
subtraction this agrees with the JS numeric check for every `now`: when
`now < timestamp` both give a value below the TTL. -/
def isCachedAdmin : Option CacheEntry → Nat → Bool
  | none, _ => false
  | some c, now => c.verified && decide (now - c.timestamp < CACHE_TTL)

/-- Outcome of one gate mount for a signed-in user. `lookups` counts
`getDoc` authorization reads. -/
structure MountOutcome where
  granted : Bool
  lookups : Nat
  cacheAfter : Option CacheEntry
deriving DecidableEq

/-- One mount of the gate for a signed-in user `U` at time `now`, given `U`'s
current cache entry and the authorization flag the external store would
report: if the cache certifies the user, grant with no lookup; otherwise
perform one lookup, and only on a positive result write the cache entry
`{verified: true, timestamp: now}` (lines 106-129 of the source). -/
def gateMount (cache : Option CacheEntry) (now : Nat) (storeIsAdmin : Bool) :
    MountOutcome :=
  if isCachedAdmin cache now then ⟨true, 0, cache⟩
  else if storeIsAdmin then ⟨true, 1, some ⟨true, now⟩⟩
  else ⟨false, 1, cache⟩


/-! ## Concrete fixtures used by witnesses and counterexamples -/

/-- The spec's end-to-end scenario B row. -/
def scenarioRowB : ParsedRow := ⟨"bad", "31/02/2025", some (-5), "", "unknown"⟩

/-- The spec's end-to-end scenario A row. -/
def scenarioRowA : ParsedRow :=
  ⟨"john@example.com", "15/01/2025", some 50, "credit_purchase", "Paid"⟩

/-- A row failing the very first rule (empty email). -/
def emptyRow : ParsedRow := ⟨"", "", none, "", ""⟩

/-- 100 invalid rows: enough to hit the error-report cap. -/
def breakRows : List ParsedRow := List.replicate 100 emptyRow

/-- A valid row whose email has upper-case letters. -/
def mixedCaseRow : ParsedRow :=
  ⟨"John@Example.com", "15/01/2025", some 50, "credit_purchase", "Paid"⟩

/-- A valid-looking row whose year field is 0050. -/
def smallYearRow : ParsedRow := ⟨"a@b.c", "15/01/0050", some 50, "x", "paid"⟩

/-! ## Helper lemmas -/

/-- Sanity anchors for the JS `Date` model: a valid date round-trips; Feb 31
normalizes to Mar 3; a two-digit year argument maps into the 1900s. -/
theorem jsMakeDate_anchors :
    dateRoundTrips 15 1 2025 = true ∧ dateRoundTrips 31 2 2025 = false ∧
    jsMakeDate 2025 1 31 = (2025, 3, 3) ∧ jsMakeDate 50 0 15 = (1950, 1, 15) ∧
    parseDateParts "31/02/2025" = (31, 2, 2025) ∧
    emailRegexTest "john@example.com" = true ∧ emailRegexTest "bad" = false := by
  refine ⟨by decide, by decide, by decide, by decide, by decide, by decide,
    by decide⟩

theorem digitVal_bounds (c : Char) (h : c.isDigit = true) :
    0 ≤ digitVal c ∧ digitVal c ≤ 9 := by
  simp [Char.isDigit] at h
  obtain ⟨h1, h2⟩ := h
  have g1 : 48 ≤ c.val.toNat := UInt32.le_toNat_of_le (by decide) h1
  have g2 : c.val.toNat ≤ 57 := UInt32.toNat_le_of_le (by decide) h2
  have e : c.toNat = c.val.toNat := rfl
  unfold digitVal
  rw [e]
  omega

theorem parseDateParts_bounds (s : String) (h : dateRegexTest s = true) :
    0 ≤ (parseDateParts s).1 ∧ (parseDateParts s).1 ≤ 99 ∧
    0 ≤ (parseDateParts s).2.1 ∧ (parseDateParts s).2.1 ≤ 99 ∧
    0 ≤ (parseDateParts s).2.2 ∧ (parseDateParts s).2.2 ≤ 9999 := by
  unfold dateRegexTest at h
  unfold parseDateParts
  split at h
  next d1 d2 s1 m1 m2 s2 y1 y2 y3 y4 heq =>
    simp only [Bool.and_eq_true, decide_eq_true_eq] at h
    obtain ⟨⟨⟨⟨⟨⟨⟨⟨⟨hd1, hd2⟩, hs1⟩, hm1⟩, hm2⟩, hs2⟩, hy1⟩, hy2⟩, hy3⟩, hy4⟩ := h
    have b1 := digitVal_bounds d1 hd1
    have b2 := digitVal_bounds d2 hd2
    have b3 := digitVal_bounds m1 hm1
    have b4 := digitVal_bounds m2 hm2
    have b5 := digitVal_bounds y1 hy1
    have b6 := digitVal_bounds y2 hy2
    have b7 := digitVal_bounds y3 hy3
    have b8 := digitVal_bounds y4 hy4
    dsimp only
    omega
  next => simp at h

theorem daysFromCivil_bounds (ym mn : Int) (h1 : 1899 ≤ ym) (h2 : ym ≤ 2007)
    (h3 : 0 ≤ mn) (h4 : mn ≤ 11) :
    -25932 ≤ daysFromCivil ym (mn + 1) 1 ∧ daysFromCivil ym (mn + 1) 1 ≤ 13848 := by
  simp only [daysFromCivil]
  split_ifs <;> omega

theorem civilFromDays_year_ge (z0 : Int) (h1 : -25933 ≤ z0) (h2 : z0 ≤ 13946) :
    1890 ≤ (civilFromDays z0).1 := by
  simp only [civilFromDays]
  have key : 1890 ≤ ((z0 + 719468 - (z0 + 719468) / 146097 * 146097 -
      (z0 + 719468 - (z0 + 719468) / 146097 * 146097) / 1460 +
      (z0 + 719468 - (z0 + 719468) / 146097 * 146097) / 36524 -
      (z0 + 719468 - (z0 + 719468) / 146097 * 146097) / 146096) / 365 +
      (z0 + 719468) / 146097 * 400) := by
    have hera : (z0 + 719468) / 146097 = 4 ∨ (z0 + 719468) / 146097 = 5 := by
      omega
    rcases hera with h | h <;> rw [h] <;> omega
  split_ifs <;> omega

theorem jsMakeDate_year_ge (y mi d : Int) (hy0 : 0 ≤ y) (hy1 : y ≤ 99)
    (hm0 : -1 ≤ mi) (hm1 : mi ≤ 98) (hd0 : 0 ≤ d) (hd1 : d ≤ 99) :
    1890 ≤ (jsMakeDate y mi d).1 := by
  simp only [jsMakeDate, if_pos (And.intro hy0 hy1)]
  have hq : -1 ≤ mi / 12 ∧ mi / 12 ≤ 8 ∧ 0 ≤ mi % 12 ∧ mi % 12 ≤ 11 := by
    omega
  have hdfc := daysFromCivil_bounds (1900 + y + mi / 12) (mi % 12)
    (by omega) (by omega) hq.2.2.1 hq.2.2.2
  exact civilFromDays_year_ge _ (by omega) (by omega)

/-- For a year argument in `0..99`, the JS `Date` constructor's 1900-mapping
means `getFullYear()` can never equal the parsed year, so the round-trip
check always fails. -/
theorem dateRoundTrips_false_of_small_year (dd mm yyyy : Int)
    (hy0 : 0 ≤ yyyy) (hy1 : yyyy ≤ 99) (hm0 : 0 ≤ mm) (hm1 : mm ≤ 99)
    (hd0 : 0 ≤ dd) (hd1 : dd ≤ 99) :
    dateRoundTrips dd mm yyyy = false := by
  have hne : (jsMakeDate yyyy (mm - 1) dd).1 ≠ yyyy := by
    have := jsMakeDate_year_ge yyyy (mm - 1) dd hy0 hy1 (by omega) (by omega)
      hd0 hd1
    omega
  simp only [dateRoundTrips, decide_eq_false hne, Bool.and_false]

theorem validateLoop_valids_spec :
    ∀ (rows : List ParsedRow) (i : Nat) (errs : List String)
      (valids : List NormalizedRow) (cnt : Nat) (r : NormalizedRow),
      r ∈ (validateLoop rows i errs valids cnt).valids →
      r ∈ valids ∨ ∃ src ∈ rows, r = normalizeValid src := by
  intro rows
  induction rows with
  | nil =>
    intro i errs valids cnt r hr
    simp only [validateLoop] at hr
    exact Or.inl hr
  | cons x rest ih =>
    intro i errs valids cnt r hr
    simp only [validateLoop] at hr
    cases hv : validateRow x (i + 2) with
    | some e =>
      rw [hv] at hr
      dsimp only at hr
      by_cases hlen : 100 ≤ (errs ++ [e]).length
      · rw [if_pos hlen] at hr
        exact Or.inl hr
      · rw [if_neg hlen] at hr
        rcases ih (i + 1) (errs ++ [e]) valids (cnt + 1) r hr with h | ⟨src, hs, he⟩
        · exact Or.inl h
        · exact Or.inr ⟨src, List.mem_cons_of_mem _ hs, he⟩
    | none =>
      rw [hv] at hr
      dsimp only at hr
      rcases ih (i + 1) errs (valids ++ [normalizeValid x]) (cnt + 1) r hr with
        h | ⟨src, hs, he⟩
      · rcases List.mem_append.mp h with h2 | h2
        · exact Or.inl h2
        · exact Or.inr ⟨x, List.mem_cons_self x rest, List.mem_singleton.mp h2⟩
      · exact Or.inr ⟨src, List.mem_cons_of_mem _ hs, he⟩

theorem validateLoop_break_absorb :
    ∀ (rows rest : List ParsedRow) (i : Nat) (errs : List String)
      (valids : List NormalizedRow) (cnt : Nat), errs.length ≤ 99 →
      (validateLoop rows i errs valids cnt).errs.length = 101 →
      validateLoop (rows ++ rest) i errs valids cnt =
        validateLoop rows i errs valids cnt ∧
      (validateLoop rows i errs valids cnt).errs.getLast? =
        some moreErrorsMarker := by
  intro rows
  induction rows with
  | nil =>
    intro rest i errs valids cnt hle hbr
    simp only [validateLoop] at hbr
    omega
  | cons x rows2 ih =>
    intro rest i errs valids cnt hle hbr
    rw [List.cons_append]
    simp only [validateLoop] at hbr ⊢
    cases hv : validateRow x (i + 2) with
    | some e =>
      rw [hv] at hbr
      dsimp only at hbr ⊢
      by_cases hlen : 100 ≤ (errs ++ [e]).length
      · simp only [if_pos hlen] at hbr ⊢
        exact ⟨trivial, by rw [List.getLast?_concat]⟩
      · simp only [if_neg hlen] at hbr ⊢
        exact ih rest (i + 1) (errs ++ [e]) valids (cnt + 1)
          (by simp at hlen ⊢; omega) hbr
    | none =>
      rw [hv] at hbr
      dsimp only at hbr ⊢
      exact ih rest (i + 1) errs (valids ++ [normalizeValid x]) (cnt + 1) hle hbr

theorem cacheHas_cons (x : String) (rr : Resolution)
    (c : List (String × Resolution)) (e : String) :
    cacheHas ((x, rr) :: c) e = ((x == e) || cacheHas c e) := by
  simp [cacheHas]

theorem resolveRun_count_inv (store : String → Option String) :
    ∀ (emails : List String) (st : ResolverRun) (e : String),
      st.lookupLog.count e = (if cacheHas st.cache e then 1 else 0) →
      (resolveRun store emails st).lookupLog.count e =
        if e ∈ emails ∨ cacheHas st.cache e = true then 1 else 0 := by
  intro emails
  induction emails with
  | nil =>
    intro st e h
    simp only [resolveRun, List.not_mem_nil, false_or]
    rw [h]
  | cons x rest ih =>
    intro st e h
    simp only [resolveRun]
    by_cases hx : cacheHas st.cache x = true
    · rw [if_pos hx, ih st e h]
      rcases eq_or_ne e x with rfl | hne
      · simp [hx]
      · simp [List.mem_cons, hne]
    · rw [if_neg hx]
      have hx0 : cacheHas st.cache x = false := by
        rwa [Bool.not_eq_true] at hx
      have hpre : ∀ rr : Resolution, (st.lookupLog ++ [x]).count e =
          (if cacheHas ((x, rr) :: st.cache) e then 1 else 0) := by
        intro rr
        rcases eq_or_ne e x with rfl | hne
        · rw [List.count_append, h, hx0, cacheHas_cons, hx0]
          simp
        · rw [List.count_append, h, cacheHas_cons]
          simp [List.count_cons, hne.symm]
      have hstep := ih ⟨(x, match store x with
          | some uid => Resolution.found uid
          | none => Resolution.notFound) :: st.cache,
          st.lookupLog ++ [x]⟩ e (hpre _)
      dsimp only at hstep
      rw [hstep, cacheHas_cons]
      rcases eq_or_ne e x with rfl | hne
      · simp
      · simp [List.mem_cons, hne, hne.symm]

theorem validateRow_calendar_branch (row : ParsedRow) (n : Nat)
    (h1 : emailBad row.email = false) (h2 : dateBad row.date = false)
    (h3 : dateRoundTrips (parseDateParts row.date).1
      (parseDateParts row.date).2.1 (parseDateParts row.date).2.2 = false) :
    validateRow row n = some (calendarErrMsg n row.date) := by
  simp only [validateRow, h1, h2, h3, Bool.false_eq_true, if_false,
    Bool.not_false, if_true]

/-! ## Claim theorems -/

theorem handleParsedRows_skip (rows : List ParsedRow)
    (server : List NormalizedRow → BulkResult)
    (h0 : ¬ rows.length = 0) (h1 : ¬ MAX_ROWS < rows.length)
    (h2 : (validateLoop rows 0 [] [] 0).valids.length = 0) :
    handleParsedRows rows server =
      ⟨⟨0, (validateLoop rows 0 [] [] 0).errs⟩, 0,
        (validateLoop rows 0 [] [] 0).validated⟩ := by
  simp only [handleParsedRows, if_neg h0, if_neg h1, if_pos h2]

theorem handleParsedRows_submit (rows : List ParsedRow)
    (server : List NormalizedRow → BulkResult)
    (h0 : ¬ rows.length = 0) (h1 : ¬ MAX_ROWS < rows.length)
    (h2 : ¬ (validateLoop rows 0 [] [] 0).valids.length = 0) :
    handleParsedRows rows server =
      ⟨⟨(server (validateLoop rows 0 [] [] 0).valids).success,
        (validateLoop rows 0 [] [] 0).errs ++
          (server (validateLoop rows 0 [] [] 0).valids).errors⟩, 1,
        (validateLoop rows 0 [] [] 0).validated⟩ := by
  simp only [handleParsedRows, if_neg h0, if_neg h1, if_neg h2]

/-- C1: the validator applies its rules in the fixed spec order (email
format, date lexical shape, real calendar date, year range, amount range,
type length, status enum) and returns the error of the first failing rule
only (`validateRow` equals first-hit lookup in `ruleTable`); for scenario B's
row it returns exactly the email-format message, and the single-row run
records that one error, submits nothing, and makes no network call. -/
theorem C1_first_failure_wins (row : ParsedRow) (n : Nat)
    (server : List NormalizedRow → BulkResult) :
    validateRow row n =
      ((ruleTable row n).find? (fun c => c.1)).map (fun c => c.2) ∧
    validateRow scenarioRowB n = some (emailErrMsg n "bad") ∧
    handleParsedRows [scenarioRowB] server = ⟨⟨0, [emailErrMsg 2 "bad"]⟩, 0, 1⟩ := by
  refine ⟨?_, ?_, ?_⟩
  · simp only [validateRow, ruleTable]
    cases h1 : emailBad row.email <;>
    cases h2 : dateBad row.date <;>
    cases h3 : dateRoundTrips (parseDateParts row.date).1
      (parseDateParts row.date).2.1 (parseDateParts row.date).2.2 <;>
    cases h4 : (decide ((parseDateParts row.date).2.2 < 2000) ||
      decide (2100 < (parseDateParts row.date).2.2)) <;>
    cases h5 : amountBad row.amount <;>
    cases h6 : typeBad row.type <;>
    cases h7 : statusBad row.status <;>
    simp [List.find?, h1, h2, h3, h4, h5, h6, h7]
  · unfold validateRow
    rw [if_pos (show emailBad scenarioRowB.email = true from by decide)]
    rfl
  · rw [handleParsedRows_skip [scenarioRowB] server (by decide) (by decide)
      (by decide)]
    decide

/-- C2: for any parsed input with more than 1000 rows, the run aborts before
validating any row (`rowsValidated = 0`), makes no network call
(`networkCalls = 0`), and reports zero successes with exactly the one
file-level row-count error. -/
theorem C2_row_limit (rows : List ParsedRow)
    (server : List NormalizedRow → BulkResult) (h : 1000 < rows.length) :
    handleParsedRows rows server = ⟨⟨0, [tooManyRowsMsg rows.length]⟩, 0, 0⟩ := by
  simp only [handleParsedRows, if_neg (show ¬ rows.length = 0 by omega),
    if_pos (show MAX_ROWS < rows.length from h)]

/-- Witness for C2 at 1001 rows, including the spec's exact error string. -/
theorem C2_row_limit_witness :
    handleParsedRows (List.replicate 1001 emptyRow) (fun _ => ⟨0, []⟩) =
      ⟨⟨0, [tooManyRowsMsg 1001]⟩, 0, 0⟩ ∧
    tooManyRowsMsg 1001 = "File has 1001 rows. Maximum is 1000 per upload." := by
  constructor
  · have := C2_row_limit (List.replicate 1001 emptyRow) (fun _ => ⟨0, []⟩)
      (by simp)
    simpa using this
  · decide

/-- C3 counterexample: on 100 invalid rows followed by one valid row, the
loop records 100 messages plus the marker and then `break`s: only 100 rows
are ever validated, the trailing valid row (which `validateRow` accepts) is
not collected, no batch is submitted — refuting "it continues validating the
remaining rows" and "valid rows occurring after the 100th error are still
collected". -/
theorem C3_counterexample :
    (breakRows ++ [scenarioRowA]).length = 101 ∧
    (validateLoop (breakRows ++ [scenarioRowA]) 0 [] [] 0).validated = 100 ∧
    (validateLoop (breakRows ++ [scenarioRowA]) 0 [] [] 0).valids = [] ∧
    validateRow scenarioRowA 102 = none ∧
    (handleParsedRows (breakRows ++ [scenarioRowA])
      (fun rs => ⟨rs.length, []⟩)).networkCalls = 0 := by
  refine ⟨by decide, by decide, by decide, by decide, ?_⟩
  rw [handleParsedRows_skip _ _ (by decide) (by decide) (by decide)]

/-- C3 amended: when the number of recorded validation errors reaches 100,
the loop appends the single `... and more` marker as the last entry and
stops: appending any further rows to the input changes nothing — they are
neither validated nor collected. -/
theorem C3_error_cap_stops_loop (rows rest : List ParsedRow)
    (h : (validateLoop rows 0 [] [] 0).errs.length = 101) :
    validateLoop (rows ++ rest) 0 [] [] 0 = validateLoop rows 0 [] [] 0 ∧
    (validateLoop rows 0 [] [] 0).errs.getLast? = some moreErrorsMarker :=
  validateLoop_break_absorb rows rest 0 [] [] 0 (by simp) h

/-- Witness for the amended C3 on the concrete 100-error input. -/
theorem C3_error_cap_stops_loop_witness :
    validateLoop (breakRows ++ [scenarioRowA]) 0 [] [] 0 =
      validateLoop breakRows 0 [] [] 0 ∧
    (validateLoop breakRows 0 [] [] 0).errs.getLast? = some moreErrorsMarker :=
  C3_error_cap_stops_loop breakRows [scenarioRowA] (by decide)

/-- C4 counterexample: the row with email `John@Example.com` passes
validation and is handed on with its email only trimmed — not lowercased —
while the claim's normalized form would be `john@example.com`. -/
theorem C4_counterexample :
    (validateLoop [mixedCaseRow] 0 [] [] 0).valids.map NormalizedRow.email =
      ["John@Example.com"] ∧
    jsTrim (jsToLower mixedCaseRow.email) = "john@example.com" ∧
    ("John@Example.com" : String) ≠ "john@example.com" := by
  refine ⟨by decide, by decide, by decide⟩

/-- C4 amended: every row that passes validation is handed to the bulk
submitter with its email trimmed (but not lowercased), its date and type
trimmed, its amount unchanged, and its status lowercased and trimmed. -/
theorem C4_normalized_form (rows : List ParsedRow) (r : NormalizedRow)
    (h : r ∈ (validateLoop rows 0 [] [] 0).valids) :
    ∃ src ∈ rows, r.email = jsTrim src.email ∧ r.date = jsTrim src.date ∧
      r.amount = src.amount ∧ r.type = jsTrim src.type ∧
      r.status = jsTrim (jsToLower src.status) := by
  rcases validateLoop_valids_spec rows 0 [] [] 0 r h with h2 | ⟨src, hs, he⟩
  · simp at h2
  · exact ⟨src, hs, by rw [he]; exact ⟨rfl, rfl, rfl, rfl, rfl⟩⟩

/-- Witness for the amended C4 on the mixed-case row. -/
theorem C4_normalized_form_witness :
    ∃ src ∈ [mixedCaseRow],
      (normalizeValid mixedCaseRow).email = jsTrim src.email ∧
      (normalizeValid mixedCaseRow).date = jsTrim src.date ∧
      (normalizeValid mixedCaseRow).amount = src.amount ∧
      (normalizeValid mixedCaseRow).type = jsTrim src.type ∧
      (normalizeValid mixedCaseRow).status = jsTrim (jsToLower src.status) :=
  C4_normalized_form [mixedCaseRow] (normalizeValid mixedCaseRow) (by decide)

/-- C5 (spec-modelled resolver): within one run starting from an empty
IdentityCache, each distinct email triggers exactly one external lookup —
the lookup log contains an email once if it occurs in the run's email list
(however many rows share it), and never otherwise. -/
theorem C5_resolver_single_lookup (store : String → Option String)
    (emails : List String) (e : String) :
    (resolveRun store emails ⟨[], []⟩).lookupLog.count e =
      if e ∈ emails then 1 else 0 := by
  have h := resolveRun_count_inv store emails ⟨[], []⟩ e (by simp [cacheHas])
  simpa [cacheHas] using h

/-- C6: whenever the email rule and the lexical date rule pass but the
day/month/year parts do not reconstruct the same date, `validateRow` rejects
with the calendar-date message — not any later rule's message. -/
theorem C6_calendar_rejection (row : ParsedRow) (n : Nat)
    (h1 : emailBad row.email = false) (h2 : dateBad row.date = false)
    (h3 : dateRoundTrips (parseDateParts row.date).1
      (parseDateParts row.date).2.1 (parseDateParts row.date).2.2 = false) :
    validateRow row n = some (calendarErrMsg n row.date) :=
  validateRow_calendar_branch row n h1 h2 h3

/-- Witness for C6 at `31/02/2025`. -/
theorem C6_calendar_rejection_witness :
    validateRow ⟨"a@b.c", "31/02/2025", some 50, "x", "paid"⟩ 2 =
      some (calendarErrMsg 2 "31/02/2025") :=
  C6_calendar_rejection ⟨"a@b.c", "31/02/2025", some 50, "x", "paid"⟩ 2
    (by decide) (by decide) (by decide)

/-- C7: for a run that reaches submission, the reported error list is exactly
the client-side validation errors followed by the server-reported errors, and
the reported success count is the server's. -/
theorem C7_error_concat (rows : List ParsedRow)
    (server : List NormalizedRow → BulkResult)
    (h0 : rows.length ≠ 0) (h1 : rows.length ≤ 1000)
    (h2 : (validateLoop rows 0 [] [] 0).valids.length ≠ 0) :
    (handleParsedRows rows server).result.errors =
      (validateLoop rows 0 [] [] 0).errs ++
        (server (validateLoop rows 0 [] [] 0).valids).errors ∧
    (handleParsedRows rows server).result.success =
      (server (validateLoop rows 0 [] [] 0).valids).success := by
  rw [handleParsedRows_submit rows server h0 (by simp only [MAX_ROWS]; omega) h2]
  exact ⟨rfl, rfl⟩

/-- Witness for C7: scenario A's row with a server echoing one success and
one error string. -/
theorem C7_error_concat_witness :
    (handleParsedRows [scenarioRowA] (fun _ => ⟨1, ["srv"]⟩)).result.errors =
      (validateLoop [scenarioRowA] 0 [] [] 0).errs ++ ["srv"] ∧
    (handleParsedRows [scenarioRowA] (fun _ => ⟨1, ["srv"]⟩)).result.success = 1 :=
  C7_error_concat [scenarioRowA] (fun _ => ⟨1, ["srv"]⟩) (by decide) (by decide)
    (by decide)

/-- C8: when zero rows pass validation, submission is skipped entirely — no
network call — and the run ends with zero successes and exactly the
client-side validation errors. -/
theorem C8_skip_submission (rows : List ParsedRow)
    (server : List NormalizedRow → BulkResult)
    (h0 : rows.length ≠ 0) (h1 : rows.length ≤ 1000)
    (h2 : (validateLoop rows 0 [] [] 0).valids.length = 0) :
    handleParsedRows rows server =
      ⟨⟨0, (validateLoop rows 0 [] [] 0).errs⟩, 0,
        (validateLoop rows 0 [] [] 0).validated⟩ :=
  handleParsedRows_skip rows server h0 (by simp only [MAX_ROWS]; omega) h2

/-- Witness for C8 on scenario B's all-invalid single row. -/
theorem C8_skip_submission_witness :
    handleParsedRows [scenarioRowB] (fun _ => ⟨7, ["x"]⟩) =
      ⟨⟨0, (validateLoop [scenarioRowB] 0 [] [] 0).errs⟩, 0,
        (validateLoop [scenarioRowB] 0 [] [] 0).validated⟩ :=
  C8_skip_submission [scenarioRowB] (fun _ => ⟨7, ["x"]⟩) (by decide)
    (by decide) (by decide)

/-- C9: with a positive cache entry written at `T`, any mount strictly before
`T + 60s` is granted with zero lookups; any mount at or after `T + 60s`
performs a fresh lookup; and the cache is only ever written by a mount whose
store lookup was positive, in which case the new entry is
`{verified: true, timestamp: now}`. -/
theorem C9_session_gate (T now1 now2 now3 : Nat) (flag1 flag2 flag3 : Bool)
    (cache : Option CacheEntry) :
    (now1 < T + 60000 →
      gateMount (some ⟨true, T⟩) now1 flag1 = ⟨true, 0, some ⟨true, T⟩⟩) ∧
    (T + 60000 ≤ now2 → (gateMount (some ⟨true, T⟩) now2 flag2).lookups = 1) ∧
    ((gateMount cache now3 flag3).cacheAfter ≠ cache →
      flag3 = true ∧ (gateMount cache now3 flag3).cacheAfter = some ⟨true, now3⟩) := by
  refine ⟨?_, ?_, ?_⟩
  · intro h
    have hc : isCachedAdmin (some ⟨true, T⟩) now1 = true := by
      simp only [isCachedAdmin, CACHE_TTL, Bool.true_and, decide_eq_true_eq]
      omega
    simp [gateMount, hc]
  · intro h
    have hc : isCachedAdmin (some ⟨true, T⟩) now2 = false := by
      simp only [isCachedAdmin, CACHE_TTL, Bool.true_and, decide_eq_false_iff_not]
      omega
    simp only [gateMount, hc, Bool.false_eq_true, if_false]
    cases flag2 <;> simp
  · intro hne
    unfold gateMount at hne ⊢
    by_cases hc : isCachedAdmin cache now3 = true
    · rw [if_pos hc] at hne
      simp at hne
    · rw [if_neg hc] at hne ⊢
      cases flag3
      · simp at hne
      · simp

/-- Witness for C9: `T = 1000`; a mount at `T + 30s` is granted from cache
with zero lookups, a mount at `T + 60s` performs one lookup, and a
cache-writing mount wrote `{verified: true, timestamp: now}` after a positive
store result. -/
theorem C9_session_gate_witness :
    gateMount (some ⟨true, 1000⟩) 31000 false = ⟨true, 0, some ⟨true, 1000⟩⟩ ∧
    (gateMount (some ⟨true, 1000⟩) 61000 true).lookups = 1 ∧
    (true = true ∧ (gateMount none 5 true).cacheAfter = some ⟨true, 5⟩) :=
  ⟨(C9_session_gate 1000 31000 61000 5 false true true none).1 (by decide),
   (C9_session_gate 1000 31000 61000 5 false true true none).2.1 (by decide),
   (C9_session_gate 1000 31000 61000 5 false true true none).2.2 (by decide)⟩

/-- C10: when the email and lexical date rules pass and the parsed year is at
most 99, the JS `Date` 1900-mapping makes the round-trip check fail, so the
validator rejects with the calendar-date message — the year-range rule is
unreachable for such inputs. -/
theorem C10_small_year_calendar (row : ParsedRow) (n : Nat)
    (h1 : emailBad row.email = false) (h2 : dateBad row.date = false)
    (h3 : (parseDateParts row.date).2.2 ≤ 99) :
    validateRow row n = some (calendarErrMsg n row.date) := by
  have hre : dateRegexTest row.date = true := by
    simp only [dateBad, Bool.or_eq_false_iff] at h2
    have := h2.2
    rwa [Bool.not_eq_false'] at this
  have hb := parseDateParts_bounds row.date hre
  have hrt : dateRoundTrips (parseDateParts row.date).1
      (parseDateParts row.date).2.1 (parseDateParts row.date).2.2 = false :=
    dateRoundTrips_false_of_small_year _ _ _ hb.2.2.2.2.1 h3 hb.2.2.1
      hb.2.2.2.1 hb.1 hb.2.1
  exact validateRow_calendar_branch row n h1 h2 hrt

/-- Witness for C10 at `15/01/0050`: rejected as an invalid calendar date,
not as an out-of-range year. -/
theorem C10_small_year_calendar_witness :
    validateRow smallYearRow 2 = some (calendarErrMsg 2 "15/01/0050") ∧
    validateRow smallYearRow 2 ≠ some (yearErrMsg 2 50) :=
  ⟨C10_small_year_calendar smallYearRow 2 (by decide) (by decide) (by decide),
   by decide⟩
